import Mathlib

/-!
Verification development for the todo_cli repository.

Shallow embedding of `src/todo_cli/todo.py` (Task, TodoList) and the
due-date parser of `src/todo_cli/cli.py`, with theorems settling the
frozen claims about the natural-language specification.

Modelling conventions:
* Python `datetime` objects are the structure `PyDateTime` (naive local
  wall-clock fields, as in the source, which never uses time zones).
  Python compares naive datetimes field-lexicographically; `dtLe` mirrors
  that.  `datetime + timedelta(days=k)` for `k ≥ 0` advances the calendar
  date by `k` days keeping the time of day; `addDaysNat` mirrors that.
* The wall clock used by the timers (`time.time()`, float seconds) is an
  explicit `now : ℚ` argument; `datetime.now()` is an explicit
  `now : PyDateTime` argument.
* Python dict records (`Dict[str, Any]`) are `RawRecord`: each of the five
  keys read by `Task.from_dict` / written by `Task.to_dict` is an
  `Option PyVal`, where `PyVal` is a representative universe of the JSON
  values that can appear (int, bool, str, float, None).
* Python floats are modelled as `ℚ` (no claim depends on rounding).
* Exceptions become `Except`.  `Task.from_dict` catches
  `(KeyError, ValueError, TypeError)` and re-raises `ValueError("Invalid
  task data: ...")` — modelled as `FromDictErr.invalidData`; an
  `AttributeError` escaping from `title.strip()` on a non-string truthy
  title is *not* caught — modelled as `FromDictErr.attributeError`.
-/

namespace TodoCli

/-- Decidable equality for `Except`, so concrete runs of the fallible
operations can be checked by `decide`. -/
instance exceptDecEq {ε α : Type} [DecidableEq ε] [DecidableEq α] :
    DecidableEq (Except ε α) := fun x y =>
  match x, y with
  | .ok a, .ok b =>
    if h : a = b then .isTrue (by rw [h])
    else .isFalse (fun hc => h (Except.ok.inj hc))
  | .error a, .error b =>
    if h : a = b then .isTrue (by rw [h])
    else .isFalse (fun hc => h (Except.error.inj hc))
  | .ok _, .error _ => .isFalse (fun hc => Except.noConfusion hc)
  | .error _, .ok _ => .isFalse (fun hc => Except.noConfusion hc)

/-! ## Python string primitives (ASCII fragment used by the source) -/

/-- Whitespace characters stripped by Python `str.strip()` (ASCII fragment). -/
def isPySpace (c : Char) : Bool :=
  c = ' ' || c = '\t' || c = '\n' || c = '\r' || c = '\x0b' || c = '\x0c'

/-- Python `str.lower()` on one character (ASCII fragment). -/
def pyCharLower (c : Char) : Char :=
  if 'A' ≤ c ∧ c ≤ 'Z' then Char.ofNat (c.toNat + 32) else c

/-- Python `str.strip()` on a character list. -/
def pyStripL (l : List Char) : List Char :=
  ((l.dropWhile isPySpace).reverse.dropWhile isPySpace).reverse

/-- Python `str.strip()`. -/
def pyStrip (s : String) : String := String.mk (pyStripL s.data)

/-- Python `str.lower()`. -/
def pyLower (s : String) : String := String.mk (s.data.map pyCharLower)

/-- Python `str.endswith(suffix)`. -/
def pyEndsWith (s t : String) : Bool := List.isSuffixOf t.data s.data

/-! ## Naive datetimes -/

/-- A Python naive `datetime` (year/month/day/hour/minute/second/microsecond),
local wall-clock semantics, exactly the fields the source manipulates. -/
structure PyDateTime where
  year : Nat
  month : Nat
  day : Nat
  hour : Nat
  minute : Nat
  second : Nat
  microsecond : Nat
deriving DecidableEq

/-- Python `datetime.__le__`: field-lexicographic comparison. -/
def dtLe (a b : PyDateTime) : Bool :=
  if a.year ≠ b.year then decide (a.year < b.year)
  else if a.month ≠ b.month then decide (a.month < b.month)
  else if a.day ≠ b.day then decide (a.day < b.day)
  else if a.hour ≠ b.hour then decide (a.hour < b.hour)
  else if a.minute ≠ b.minute then decide (a.minute < b.minute)
  else if a.second ≠ b.second then decide (a.second < b.second)
  else decide (a.microsecond ≤ b.microsecond)

/-- Python `datetime.__lt__` (strict field-lexicographic comparison). -/
def dtLt (a b : PyDateTime) : Bool := dtLe a b && !(decide (a = b))

/-- Gregorian leap year, as in Python's `calendar`/`datetime`. -/
def isLeap (y : Nat) : Bool :=
  (y % 4 = 0 && y % 100 ≠ 0) || y % 400 = 0

/-- Days in a Gregorian month. -/
def daysInMonth (y m : Nat) : Nat :=
  if m = 2 then (if isLeap y then 29 else 28)
  else if m = 4 ∨ m = 6 ∨ m = 9 ∨ m = 11 then 30
  else 31

/-- Advance a datetime by one calendar day, keeping the time of day
(the effect of `+ timedelta(days=1)` on a naive datetime). -/
def nextDay (d : PyDateTime) : PyDateTime :=
  if d.day < daysInMonth d.year d.month then { d with day := d.day + 1 }
  else if d.month < 12 then { d with day := 1, month := d.month + 1 }
  else { d with day := 1, month := 1, year := d.year + 1 }

/-- `dt + timedelta(days=k)` for `k ≥ 0`. -/
def addDaysNat (d : PyDateTime) : Nat → PyDateTime
  | 0 => d
  | k + 1 => nextDay (addDaysNat d k)

/-- Cumulative days before month `m` in year `y` (Python `datetime._days_before_month`). -/
def daysBeforeMonth (y m : Nat) : Nat :=
  [0, 31, 59, 90, 120, 151, 181, 212, 243, 273, 304, 334].getD (m - 1) 0 +
    (if 2 < m ∧ isLeap y then 1 else 0)

/-- Days before January 1st of year `y` (Python `datetime._days_before_year`). -/
def daysBeforeYear (y : Nat) : Int :=
  365 * ((y : Int) - 1) + ((y : Int) - 1) / 4 - ((y : Int) - 1) / 100 +
    ((y : Int) - 1) / 400

/-- Proleptic-Gregorian ordinal of the date (Python `date.toordinal`). -/
def toOrdinal (d : PyDateTime) : Int :=
  daysBeforeYear d.year + (daysBeforeMonth d.year d.month : Int) + (d.day : Int)

/-- Absolute seconds represented by a datetime; differences of this value
are `(a - b).total_seconds()` for naive datetimes. -/
def dtToSeconds (d : PyDateTime) : ℚ :=
  ((toOrdinal d * 86400 + (d.hour : Int) * 3600 + (d.minute : Int) * 60 +
    (d.second : Int) : Int) : ℚ) + (d.microsecond : ℚ) / 1000000

/-! ## ISO-8601 serialisation (`datetime.isoformat` / `datetime.fromisoformat`) -/

/-- The decimal digit character for `k ≤ 9`. -/
def digitOf (k : Nat) : Char := Char.ofNat (48 + k)

/-- Two-digit zero-padded decimal (`"%02d"`), for `n ≤ 99`. -/
def pad2 (n : Nat) : List Char := [digitOf (n / 10), digitOf (n % 10)]

/-- Four-digit zero-padded decimal (`"%04d"`), for `n ≤ 9999`. -/
def pad4 (n : Nat) : List Char :=
  [digitOf (n / 1000), digitOf (n / 100 % 10), digitOf (n / 10 % 10), digitOf (n % 10)]

/-- Six-digit zero-padded decimal (`"%06d"`), for `n ≤ 999999`. -/
def pad6 (n : Nat) : List Char :=
  [digitOf (n / 100000), digitOf (n / 10000 % 10), digitOf (n / 1000 % 10),
    digitOf (n / 100 % 10), digitOf (n / 10 % 10), digitOf (n % 10)]

/-- `datetime.isoformat()` as a character list:
`YYYY-MM-DDTHH:MM:SS`, with `.ffffff` appended when the microsecond is
non-zero (Python omits it when zero). -/
def isoformatL (d : PyDateTime) : List Char :=
  pad4 d.year ++ '-' :: pad2 d.month ++ '-' :: pad2 d.day ++
    'T' :: pad2 d.hour ++ ':' :: pad2 d.minute ++ ':' :: pad2 d.second ++
    (if d.microsecond = 0 then [] else '.' :: pad6 d.microsecond)

/-- `datetime.isoformat()`. -/
def isoformat (d : PyDateTime) : String := String.mk (isoformatL d)

/-- Parse one decimal digit. -/
def parseDigit (c : Char) : Option Nat :=
  if 48 ≤ c.toNat ∧ c.toNat ≤ 57 then some (c.toNat - 48) else none

/-- Parse two decimal digits. -/
def parseD2 (a b : Char) : Option Nat :=
  match parseDigit a, parseDigit b with
  | some x, some y => some (10 * x + y)
  | _, _ => none

/-- Parse four decimal digits. -/
def parseD4 (a b c d : Char) : Option Nat :=
  match parseDigit a, parseDigit b, parseDigit c, parseDigit d with
  | some x, some y, some z, some w => some (1000 * x + 100 * y + 10 * z + w)
  | _, _, _, _ => none

/-- Parse six decimal digits. -/
def parseD6 (a b c d e f : Char) : Option Nat :=
  match parseDigit a, parseDigit b, parseDigit c, parseDigit d,
      parseDigit e, parseDigit f with
  | some x, some y, some z, some w, some u, some v =>
    some (100000 * x + 10000 * y + 1000 * z + 100 * w + 10 * u + v)
  | _, _, _, _, _, _ => none

/-- Build a datetime after the range validation `datetime` performs
(month 1-12, day within the month, hour/minute/second/microsecond in
range, year 1-9999). -/
def mkDT (y mo da h mi s mic : Nat) : Option PyDateTime :=
  if 1 ≤ y ∧ y ≤ 9999 ∧ 1 ≤ mo ∧ mo ≤ 12 ∧ 1 ≤ da ∧ da ≤ daysInMonth y mo ∧
      h ≤ 23 ∧ mi ≤ 59 ∧ s ≤ 59 ∧ mic ≤ 999999 then
    some ⟨y, mo, da, h, mi, s, mic⟩
  else none

/-- `datetime.fromisoformat` on a character list, covering the shapes the
source can feed it: `YYYY-MM-DD`, `YYYY-MM-DD[T ]HH:MM:SS` and
`YYYY-MM-DD[T ]HH:MM:SS.ffffff` (the image of `isoformat`); anything else
fails (`ValueError`). -/
def parseIsoL (s : List Char) : Option PyDateTime :=
  match s with
  | a :: b :: c :: d :: s1 :: e :: f :: s2 :: g :: h :: rest =>
    if s1 = '-' ∧ s2 = '-' then
      match parseD4 a b c d, parseD2 e f, parseD2 g h with
      | some y, some mo, some da =>
        match rest with
        | [] => mkDT y mo da 0 0 0 0
        | sep :: h1 :: h2 :: c1 :: m1 :: m2 :: c2 :: x1 :: x2 :: rest2 =>
          if (sep = 'T' ∨ sep = ' ') ∧ c1 = ':' ∧ c2 = ':' then
            match parseD2 h1 h2, parseD2 m1 m2, parseD2 x1 x2 with
            | some hh, some mi, some ss =>
              match rest2 with
              | [] => mkDT y mo da hh mi ss 0
              | dot :: u1 :: u2 :: u3 :: u4 :: u5 :: u6 :: [] =>
                if dot = '.' then
                  match parseD6 u1 u2 u3 u4 u5 u6 with
                  | some mic => mkDT y mo da hh mi ss mic
                  | none => none
                else none
              | _ => none
            | _, _, _ => none
          else none
        | _ => none
      | _, _, _ => none
    else none
  | _ => none

/-- `datetime.fromisoformat`. -/
def fromisoformat (s : String) : Option PyDateTime := parseIsoL s.data

/-! ## Python values and records -/

/-- Representative universe of the Python values that can sit in a task
record (`Dict[str, Any]` coming from JSON/CSV storage). -/
inductive PyVal where
  | vint (n : Int)
  | vbool (b : Bool)
  | vstr (s : String)
  | vfloat (q : ℚ)
  | vnone
deriving DecidableEq

/-- Python truthiness of a `PyVal`. -/
def pyTruthy : PyVal → Bool
  | .vint n => n ≠ 0
  | .vbool b => b
  | .vstr s => s ≠ ""
  | .vfloat q => q ≠ 0
  | .vnone => false

/-- Python `isinstance(v, int)` view: ints and bools (bool subclasses int,
`True == 1`, `False == 0`); everything else is not an int. -/
def pyIntLike : PyVal → Option Int
  | .vint n => some n
  | .vbool b => some (if b then 1 else 0)
  | _ => none

/-- A task record: the five keys read by `Task.from_dict` / written by
`Task.to_dict`; `none` means the key is absent from the dict. -/
structure RawRecord where
  id : Option PyVal
  title : Option PyVal
  done : Option PyVal
  due_date : Option PyVal
  time_spent : Option PyVal
deriving DecidableEq

/-! ## Task -/

/-- A task (todo.py, class `Task`): id, stripped title, completion flag,
optional due date, accumulated seconds, optional running-timer start. -/
structure Task where
  id : Int
  title : String
  done : Bool
  due_date : Option PyDateTime
  time_spent : ℚ
  timer_start : Option ℚ
deriving DecidableEq

/-- Python exceptions escaping `Task.__init__`. -/
inductive PyExn where
  | valueError
  | attributeError
deriving DecidableEq

/-- `Task.__init__` (todo.py lines 13-24) called with arbitrary Python
values for `task_id` and `title` (as `from_dict` does):
raises `ValueError` when `task_id` is not an int (bools count as ints) or
`≤ 0`, when `title` is falsy, or when `title` strips to empty; evaluating
`title.strip()` on a truthy non-string raises `AttributeError` instead.
On success stores the stripped title, `time_spent = 0.0`, no timer. -/
def pyTaskInit (idv titlev : PyVal) (done : Bool) (due : Option PyDateTime) :
    Except PyExn Task :=
  match pyIntLike idv with
  | none => .error .valueError
  | some n =>
    if n ≤ 0 then .error .valueError
    else if pyTruthy titlev = false then .error .valueError
    else
      match titlev with
      | .vstr s =>
        if pyStrip s = "" then .error .valueError
        else .ok ⟨n, pyStrip s, done, due, 0, none⟩
      | _ => .error .attributeError

/-- `Task.to_dict` (todo.py lines 26-34). A datetime is always truthy, so
`self.due_date.isoformat() if self.due_date else None` serialises `some d`
to the ISO string and `none` to Python `None`. -/
def toDict (t : Task) : RawRecord :=
  { id := some (.vint t.id)
  , title := some (.vstr t.title)
  , done := some (.vbool t.done)
  , due_date := some (match t.due_date with
      | some d => .vstr (isoformat d)
      | none => .vnone)
  , time_spent := some (.vfloat t.time_spent) }

/-- `Task.start_timer` (todo.py lines 52-59): refuses when done or already
running, otherwise records the current wall-clock instant. -/
def startTimerTask (now : ℚ) (t : Task) : Bool × Task :=
  if t.done then (false, t)
  else
    match t.timer_start with
    | none => (true, { t with timer_start := some now })
    | some _ => (false, t)

/-- `Task.stop_timer` (todo.py lines 61-68): folds the elapsed session
into `time_spent` and clears the timer; returns `0.0` when not running. -/
def stopTimerTask (now : ℚ) (t : Task) : ℚ × Task :=
  match t.timer_start with
  | some s =>
    (now - s, { t with time_spent := t.time_spent + (now - s), timer_start := none })
  | none => (0, t)

/-- `Task.is_timer_running` (todo.py lines 70-72). -/
def isTimerRunning (t : Task) : Bool := t.timer_start.isSome

/-- Python `int(x)` on a rational: truncation toward zero. -/
def pyIntQ (q : ℚ) : Int :=
  if 0 ≤ q then q.num / (q.den : Int) else -((-q).num / ((-q).den : Int))

/-- `Task._format_duration` (todo.py lines 104-123): `"{n}s"` below one
minute; otherwise emit non-zero day/hour parts, a minute part only when no
day part, and append the seconds when the part list is empty or is exactly
one part ending in `'m'`. -/
def formatDuration (seconds : ℚ) : String :=
  if seconds < 60 then toString (pyIntQ seconds) ++ "s"
  else
    let n : Nat := (pyIntQ seconds).toNat
    let days := n / 86400
    let rem1 := n % 86400
    let hours := rem1 / 3600
    let rem2 := rem1 % 3600
    let minutes := rem2 / 60
    let secs := rem2 % 60
    let parts : List String :=
      (if 0 < days then [toString days ++ "d"] else []) ++
      (if 0 < hours then [toString hours ++ "h"] else []) ++
      (if 0 < minutes ∧ days = 0 then [toString minutes ++ "m"] else [])
    let parts2 : List String :=
      if parts = [] ∨ (parts.length = 1 ∧ pyEndsWith (parts.headD "") "m") then
        parts ++ [toString secs ++ "s"]
      else parts
    String.intercalate " " parts2

/-- `Task.remaining_time_seconds` (todo.py lines 78-82): `None` when there
is no due date or the task is done, else `(due_date - now).total_seconds()`. -/
def remainingTimeSeconds (now : PyDateTime) (t : Task) : Option ℚ :=
  match t.due_date with
  | none => none
  | some due => if t.done then none else some (dtToSeconds due - dtToSeconds now)

/-- `Task.format_remaining_time` (todo.py lines 84-96). -/
def formatRemainingTime (now : PyDateTime) (t : Task) : String :=
  match remainingTimeSeconds now t with
  | none => "No deadline"
  | some r =>
    if r < 0 then "Overdue by " ++ formatDuration (-r)
    else if r < 60 then "Due very soon"
    else formatDuration r ++ " remaining"

/-- `Task.is_overdue` (todo.py lines 98-102). -/
def isOverdue (now : PyDateTime) (t : Task) : Bool :=
  if t.done then false
  else
    match t.due_date with
    | none => false
    | some due => dtLt due now

/-! ## TodoList -/

/-- `TodoList` (todo.py lines 126-199): task sequence plus id counter. -/
structure TodoList where
  tasks : List Task
  next_id : Int
deriving DecidableEq

/-- `TodoList.find_task` (todo.py lines 140-142): first task with the id. -/
def findTask (l : TodoList) (tid : Int) : Option Task :=
  l.tasks.find? (fun t => t.id == tid)

/-- Replace (in place) the first task carrying `tid`, as mutation of the
object returned by `find_task` does. -/
def replaceFirstById (tid : Int) (t' : Task) : List Task → List Task
  | [] => []
  | t :: ts => if t.id == tid then t' :: ts else t :: replaceFirstById tid t' ts

/-- Remove the first task carrying `tid` (`list.remove` of the object
returned by `find_task`, todo.py lines 160-166). -/
def eraseFirstById (tid : Int) : List Task → List Task
  | [] => []
  | t :: ts => if t.id == tid then ts else t :: eraseFirstById tid ts

/-- `TodoList.add_task` (todo.py lines 133-138): construct with `next_id`,
append, increment the counter; constructor failures propagate. -/
def addTask (l : TodoList) (title : String) (due : Option PyDateTime) :
    Except PyExn (Task × TodoList) :=
  match pyTaskInit (.vint l.next_id) (.vstr title) false due with
  | .error e => .error e
  | .ok t => .ok (t, ⟨l.tasks ++ [t], l.next_id + 1⟩)

/-- `TodoList.list_tasks` (todo.py lines 144-148). -/
def listTasks (l : TodoList) (showAll : Bool) : List Task :=
  if showAll then l.tasks else l.tasks.filter (fun t => !t.done)

/-- `TodoList.mark_done` (todo.py lines 150-158): `None` when absent or
already done; otherwise set `done`, stop a running timer, return the task. -/
def markDone (l : TodoList) (tid : Int) (now : ℚ) : Option Task × TodoList :=
  match findTask l tid with
  | none => (none, l)
  | some t =>
    if t.done then (none, l)
    else
      let t1 := { t with done := true }
      let t2 := if isTimerRunning t1 then (stopTimerTask now t1).2 else t1
      (some t2, { l with tasks := replaceFirstById tid t2 l.tasks })

/-- `TodoList.delete_task` (todo.py lines 160-166). -/
def deleteTask (l : TodoList) (tid : Int) : Option Task × TodoList :=
  match findTask l tid with
  | none => (none, l)
  | some t => (some t, { l with tasks := eraseFirstById tid l.tasks })

/-- `TodoList.start_timer` (todo.py lines 168-171). -/
def startTimerList (l : TodoList) (tid : Int) (now : ℚ) : Bool × TodoList :=
  match findTask l tid with
  | none => (false, l)
  | some t =>
    let r := startTimerTask now t
    (r.1, { l with tasks := replaceFirstById tid r.2 l.tasks })

/-- `TodoList.stop_timer` (todo.py lines 173-176). -/
def stopTimerList (l : TodoList) (tid : Int) (now : ℚ) : ℚ × TodoList :=
  match findTask l tid with
  | none => (0, l)
  | some t =>
    let r := stopTimerTask now t
    (r.1, { l with tasks := replaceFirstById tid r.2 l.tasks })

/-- `TodoList.get_total_time_spent` (todo.py lines 178-180). -/
def getTotalTimeSpent (l : TodoList) : ℚ :=
  l.tasks.foldl (fun acc t => acc + t.time_spent) 0

/-- `TodoList.get_upcoming_tasks` (todo.py lines 182-195): empty for
`days <= 0`; otherwise the incomplete tasks whose due date lies in
`[now, now + timedelta(days=days)]`, in list order (the source does not
sort). -/
def getUpcomingTasks (l : TodoList) (now : PyDateTime) (days : Int) : List Task :=
  if days ≤ 0 then []
  else
    let cutoff := addDaysNat now days.toNat
    l.tasks.filter (fun t =>
      !t.done &&
        match t.due_date with
        | some d => dtLe now d && dtLe d cutoff
        | none => false)

/-- `TodoList.get_overdue_tasks` (todo.py lines 197-199). -/
def getOverdueTasks (l : TodoList) (now : PyDateTime) : List Task :=
  l.tasks.filter (isOverdue now)

/-! ## `Task.from_dict` (todo.py lines 36-50) -/

/-- Failure modes of `Task.from_dict`: the re-raised
`ValueError("Invalid task data: ...")` (the spec's `InvalidData`) after
catching `KeyError`/`ValueError`/`TypeError`, and an `AttributeError`
escaping uncaught from `title.strip()`. -/
inductive FromDictErr where
  | invalidData
  | attributeError
deriving DecidableEq

/-- Line 40: `datetime.fromisoformat(data['due_date']) if data.get('due_date')
else None`.  A missing or falsy value gives `None`; a truthy non-string
raises `TypeError` inside `fromisoformat` (caught); an unparsable string
raises `ValueError` (caught). -/
def decodeDue : Option PyVal → Except FromDictErr (Option PyDateTime)
  | none => .ok none
  | some v =>
    if pyTruthy v then
      match v with
      | .vstr s =>
        match fromisoformat s with
        | some d => .ok (some d)
        | none => .error .invalidData
      | _ => .error .invalidData
    else .ok none

/-- Line 47: `max(0.0, data.get('time_spent', 0.0))`.  Comparing a string
or `None` against a float raises `TypeError` (caught); bools compare as
0/1. -/
def decodeTimeSpent : PyVal → Except FromDictErr ℚ
  | .vfloat q => .ok (max 0 q)
  | .vint n => .ok (max 0 (n : ℚ))
  | .vbool b => .ok (max 0 (if b then 1 else 0))
  | _ => .error .invalidData

/-- `Task.from_dict` up to (and including) the constructor call: parse the
due date, look up `data['id']` and `data['title']` (missing key =
`KeyError`, caught), read `data.get('done', False)`, and run
`Task.__init__`.  A constructor `ValueError` is caught and re-raised as
`InvalidData`; an `AttributeError` is not caught. -/
def fromDictCore (r : RawRecord) : Except FromDictErr Task :=
  match decodeDue r.due_date with
  | .error e => .error e
  | .ok due =>
    match r.id with
    | none => .error .invalidData
    | some idv =>
      match r.title with
      | none => .error .invalidData
      | some titlev =>
        match pyTaskInit idv titlev (pyTruthy (r.done.getD (.vbool false))) due with
        | .error .valueError => .error .invalidData
        | .error .attributeError => .error .attributeError
        | .ok t => .ok t

/-- `Task.from_dict` (todo.py lines 36-50): construct, then overwrite
`time_spent` with the clamped record value. -/
def fromDict (r : RawRecord) : Except FromDictErr Task :=
  match fromDictCore r with
  | .error e => .error e
  | .ok t =>
    match decodeTimeSpent (r.time_spent.getD (.vfloat 0)) with
    | .error e => .error e
    | .ok q => .ok { t with time_spent := q }

/-! ## `parse_due_date` (cli.py lines 7-33) -/

/-- The candidate `strptime` format strings (cli.py lines 9-17). -/
def dueFormats : List String :=
  ["%Y-%m-%d", "%Y-%m-%d %H:%M", "%Y-%m-%d %H:%M:%S", "%m/%d/%Y",
    "%m/%d/%Y %H:%M", "%d.%m.%Y", "%d.%m.%Y %H:%M"]

/-- The `for fmt in formats: try strptime` loop (cli.py lines 27-31):
first format that parses wins.  `strptime` itself is a standard-library
collaborator, passed in as a parameter. -/
def firstParse (strptime : String → String → Option PyDateTime) :
    List String → String → Option PyDateTime
  | [], _ => none
  | f :: fs, d =>
    match strptime d f with
    | some dt => some dt
    | none => firstParse strptime fs d

/-- `parse_due_date` (cli.py lines 7-33): lowercase then strip; `"today"`
and `"now"` map to today at 23:59:59 (microsecond untouched — `replace`
only sets the named fields), `"tomorrow"` to the next calendar day at
23:59:59; otherwise try the literal formats in order and fail with the
`Unrecognized date format` `ValueError` echoing the processed text. -/
def parseDueDate (strptime : String → String → Option PyDateTime)
    (now : PyDateTime) (s : String) : Except String PyDateTime :=
  let d := pyStrip (pyLower s)
  if d = "today" ∨ d = "now" then
    .ok { now with hour := 23, minute := 59, second := 59 }
  else if d = "tomorrow" then
    .ok { nextDay now with hour := 23, minute := 59, second := 59 }
  else
    match firstParse strptime dueFormats d with
    | some dt => .ok dt
    | none => .error ("Unrecognized date format: " ++ d)

/-! ## Claim-side notions -/

/-- The spec invariant: a completed task has no running timer. -/
def TaskInv (t : Task) : Prop := t.done = true → t.timer_start = none

/-- "Sorted by ascending due date": each adjacent pair of due dates is
non-decreasing (pairs without two due dates impose no constraint). -/
def dueAscending : List Task → Bool
  | [] => true
  | [_] => true
  | a :: b :: rest =>
    (match a.due_date, b.due_date with
     | some da, some db => dtLe da db
     | _, _ => true) && dueAscending (b :: rest)

/-! ## Helper lemmas -/

theorem pyTaskInit_ok_shape {idv titlev : PyVal} {done : Bool}
    {due : Option PyDateTime} {t : Task}
    (h : pyTaskInit idv titlev done due = .ok t) :
    ∃ n s, pyIntLike idv = some n ∧ 0 < n ∧ titlev = .vstr s ∧
      pyStrip s ≠ "" ∧ t = ⟨n, pyStrip s, done, due, 0, none⟩ := by
  unfold pyTaskInit at h
  cases hI : pyIntLike idv with
  | none => simp only [hI] at h; exact Except.noConfusion h
  | some n =>
    simp only [hI] at h
    by_cases hn : n ≤ 0
    · simp only [if_pos hn] at h; exact Except.noConfusion h
    · simp only [if_neg hn] at h
      by_cases htr : pyTruthy titlev = false
      · simp only [if_pos htr] at h; exact Except.noConfusion h
      · simp only [if_neg htr] at h
        cases titlev with
        | vstr s =>
          by_cases hs : pyStrip s = ""
          · simp only [if_pos hs] at h; exact Except.noConfusion h
          · simp only [if_neg hs] at h
            exact ⟨n, s, rfl, by omega, rfl, hs, (Except.ok.inj h).symm⟩
        | vint n' => exact Except.noConfusion h
        | vbool b => exact Except.noConfusion h
        | vfloat q => exact Except.noConfusion h
        | vnone => exact Except.noConfusion h

theorem fromDictCore_ok_shape {r : RawRecord} {t : Task}
    (h : fromDictCore r = .ok t) : t.timer_start = none ∧ t.time_spent = 0 := by
  unfold fromDictCore at h
  cases hd : decodeDue r.due_date with
  | error e => simp only [hd] at h; exact Except.noConfusion h
  | ok due =>
    simp only [hd] at h
    cases hid : r.id with
    | none => simp only [hid] at h; exact Except.noConfusion h
    | some idv =>
      simp only [hid] at h
      cases hti : r.title with
      | none => simp only [hti] at h; exact Except.noConfusion h
      | some titlev =>
        simp only [hti] at h
        cases hinit : pyTaskInit idv titlev (pyTruthy (r.done.getD (.vbool false))) due with
        | error e =>
          simp only [hinit] at h
          cases e <;> exact Except.noConfusion h
        | ok t' =>
          simp only [hinit] at h
          obtain ⟨n, s, _, _, _, _, ht'⟩ := pyTaskInit_ok_shape hinit
          cases Except.ok.inj h
          rw [ht']
          exact ⟨rfl, rfl⟩

/-- Case description of `mark_done`: not found, already done, or success
with the timer stopped and folded in. -/
theorem markDone_eq (l : TodoList) (tid : Int) (now : ℚ) :
    (findTask l tid = none ∧ markDone l tid now = (none, l)) ∨
    (∃ t, findTask l tid = some t ∧ t.done = true ∧
      markDone l tid now = (none, l)) ∨
    (∃ t, findTask l tid = some t ∧ t.done = false ∧
      markDone l tid now =
        (some
          { t with
            done := true
            timer_start := none
            time_spent := t.time_spent +
              (match t.timer_start with | some s => now - s | none => 0) },
          { l with
            tasks := replaceFirstById tid
              { t with
                done := true
                timer_start := none
                time_spent := t.time_spent +
                  (match t.timer_start with | some s => now - s | none => 0) }
              l.tasks })) := by
  cases hf : findTask l tid with
  | none =>
    refine Or.inl ⟨rfl, ?_⟩
    unfold markDone; rw [hf]
  | some t =>
    by_cases hd : t.done = true
    · refine Or.inr (Or.inl ⟨t, rfl, hd, ?_⟩)
      simp [markDone, hf, hd]
    · refine Or.inr (Or.inr ⟨t, rfl, by simpa using hd, ?_⟩)
      cases hts : t.timer_start with
      | some s =>
        simp [markDone, hf, hd, isTimerRunning, stopTimerTask, hts]
      | none =>
        simp [markDone, hf, hd, isTimerRunning, stopTimerTask, hts]

theorem mem_replaceFirstById {tid : Int} {t' x : Task} :
    ∀ {ts : List Task}, x ∈ replaceFirstById tid t' ts → x = t' ∨ x ∈ ts := by
  intro ts
  induction ts with
  | nil => intro h; exact absurd h (by simp [replaceFirstById])
  | cons a as ih =>
    intro h
    unfold replaceFirstById at h
    by_cases ha : a.id == tid
    · rw [if_pos ha] at h
      rcases List.mem_cons.mp h with h1 | h1
      · exact Or.inl h1
      · exact Or.inr (List.mem_cons_of_mem _ h1)
    · rw [if_neg ha] at h
      rcases List.mem_cons.mp h with h1 | h1
      · exact Or.inr (h1 ▸ List.mem_cons_self a as)
      · rcases ih h1 with h2 | h2
        · exact Or.inl h2
        · exact Or.inr (List.mem_cons_of_mem _ h2)

theorem eraseFirstById_sublist (tid : Int) :
    ∀ ts : List Task, List.Sublist (eraseFirstById tid ts) ts := by
  intro ts
  induction ts with
  | nil => exact List.Sublist.refl _
  | cons a as ih =>
    unfold eraseFirstById
    by_cases ha : a.id == tid
    · rw [if_pos ha]; exact List.sublist_cons_self a as
    · rw [if_neg ha]; exact List.Sublist.cons₂ a ih

theorem decodeTimeSpent_nonneg {v : PyVal} {q : ℚ}
    (h : decodeTimeSpent v = .ok q) : 0 ≤ q := by
  cases v <;> simp only [decodeTimeSpent] at h
  · exact (Except.ok.inj h) ▸ le_max_left 0 _
  · exact (Except.ok.inj h) ▸ le_max_left 0 _
  · exact absurd h (by simp)
  · exact (Except.ok.inj h) ▸ le_max_left 0 _
  · exact absurd h (by simp)

/-! ## Claim C10 -/

/-- Claim C10: for every task with `done == true`,
`remaining_time_seconds` returns `None` and therefore
`format_remaining_time` returns `"No deadline"`, even when a due date is
set. -/
theorem c10_done_task_no_deadline (t : Task) (now : PyDateTime)
    (h : t.done = true) :
    remainingTimeSeconds now t = none ∧
      formatRemainingTime now t = "No deadline" := by
  have h1 : remainingTimeSeconds now t = none := by
    unfold remainingTimeSeconds
    cases t.due_date with
    | none => rfl
    | some d => simp [h]
  refine ⟨h1, ?_⟩
  unfold formatRemainingTime
  rw [h1]

/-- Witness for C10: a concrete completed task that has a due date set
still formats as "No deadline". -/
theorem c10_witness :
    remainingTimeSeconds ⟨2024, 1, 1, 0, 0, 0, 0⟩
        ⟨1, "x", true, some ⟨2024, 6, 1, 0, 0, 0, 0⟩, 0, none⟩ = none ∧
      formatRemainingTime ⟨2024, 1, 1, 0, 0, 0, 0⟩
        ⟨1, "x", true, some ⟨2024, 6, 1, 0, 0, 0, 0⟩, 0, none⟩ = "No deadline" :=
  c10_done_task_no_deadline ⟨1, "x", true, some ⟨2024, 6, 1, 0, 0, 0, 0⟩, 0, none⟩
    ⟨2024, 1, 1, 0, 0, 0, 0⟩ rfl

/-! ## Claim C5 -/

/-- Claim C5: `timer_start` is `None` whenever `done == True`; the
constructor establishes it, `start_timer` (which refuses to start on a
done task), `stop_timer`, `mark_done` (which stops any running timer, on
the returned task and on every task of the resulting list) and
deserialization all preserve it. -/
theorem c5_timer_none_when_done :
    (∀ idv titlev done due t, pyTaskInit idv titlev done due = .ok t →
      t.timer_start = none) ∧
    (∀ now t, t.done = true → startTimerTask now t = (false, t)) ∧
    (∀ now t, TaskInv t → TaskInv (startTimerTask now t).2) ∧
    (∀ now t, TaskInv (stopTimerTask now t).2) ∧
    (∀ r t, fromDict r = .ok t → t.timer_start = none) ∧
    (∀ l tid now, (∀ t ∈ l.tasks, TaskInv t) →
      (∀ t', (markDone l tid now).1 = some t' → TaskInv t') ∧
      (∀ t' ∈ (markDone l tid now).2.tasks, TaskInv t')) := by
  refine ⟨?_, ?_, ?_, ?_, ?_, ?_⟩
  · intro idv titlev done due t h
    obtain ⟨n, s, _, _, _, _, ht⟩ := pyTaskInit_ok_shape h
    rw [ht]
  · intro now t h
    unfold startTimerTask
    rw [if_pos h]
  · intro now t hinv
    unfold startTimerTask
    by_cases hd : t.done
    · rw [if_pos hd]; exact hinv
    · rw [if_neg hd]
      cases t.timer_start with
      | none => intro hc; exact absurd hc hd
      | some s => exact hinv
  · intro now t
    cases hts : t.timer_start with
    | some s => unfold stopTimerTask; rw [hts]; intro _; rfl
    | none => unfold stopTimerTask; rw [hts]; intro _; exact hts
  · intro r t h
    unfold fromDict at h
    cases hc : fromDictCore r with
    | error e => rw [hc] at h; exact absurd h (by simp)
    | ok t1 =>
      rw [hc] at h
      cases hq : decodeTimeSpent (r.time_spent.getD (.vfloat 0)) with
      | error e => rw [hq] at h; exact absurd h (by simp)
      | ok q =>
        rw [hq] at h
        cases Except.ok.inj h
        exact (fromDictCore_ok_shape hc).1
  · intro l tid now hall
    rcases markDone_eq l tid now with ⟨hf, hmd⟩ | ⟨t, hf, hd, hmd⟩ | ⟨t, hf, hd, hmd⟩
    · rw [hmd]
      exact ⟨fun t' h => Option.noConfusion h, fun t' ht' => hall t' ht'⟩
    · rw [hmd]
      exact ⟨fun t' h => Option.noConfusion h, fun t' ht' => hall t' ht'⟩
    · rw [hmd]
      refine ⟨fun t' h => ?_, fun t' ht' => ?_⟩
      · cases Option.some.inj h
        intro _; rfl
      · rcases mem_replaceFirstById ht' with h2 | h2
        · rw [h2]; intro _; rfl
        · exact hall t' h2

/-- Witness for C5: a started-then-completed concrete task keeps the
invariant, exercised through the theorem. -/
theorem c5_witness :
    startTimerTask 5 ⟨1, "x", true, none, 0, none⟩ =
      (false, ⟨1, "x", true, none, 0, none⟩) :=
  c5_timer_none_when_done.2.1 5 ⟨1, "x", true, none, 0, none⟩ rfl

/-! ## Claim C4 -/

/-- Claim C4: `mark_done` returns `None` when the id is absent or the
task is already done, leaving the list (hence the task's `time_spent`)
unchanged; on success it sets `done = true`, stops any running timer so
the elapsed session is folded into `time_spent`, and returns the task. -/
theorem c4_mark_done_spec (l : TodoList) (tid : Int) (now : ℚ) :
    (findTask l tid = none → markDone l tid now = (none, l)) ∧
    (∀ t, findTask l tid = some t → t.done = true →
      markDone l tid now = (none, l)) ∧
    (∀ t, findTask l tid = some t → t.done = false →
      ∃ t', markDone l tid now =
          (some t', { l with tasks := replaceFirstById tid t' l.tasks }) ∧
        t'.id = t.id ∧ t'.title = t.title ∧ t'.due_date = t.due_date ∧
        t'.done = true ∧ t'.timer_start = none ∧
        t'.time_spent = t.time_spent +
          (match t.timer_start with | some s => now - s | none => 0)) := by
  refine ⟨?_, ?_, ?_⟩
  · intro h
    rcases markDone_eq l tid now with ⟨_, hmd⟩ | ⟨t, hf, _, hmd⟩ | ⟨t, hf, _, hmd⟩
    · exact hmd
    · rw [h] at hf; exact Option.noConfusion hf
    · rw [h] at hf; exact Option.noConfusion hf
  · intro t hf hd
    rcases markDone_eq l tid now with ⟨hf2, hmd⟩ | ⟨t2, hf2, hd2, hmd⟩ | ⟨t2, hf2, hd2, hmd⟩
    · rw [hf] at hf2; exact Option.noConfusion hf2
    · exact hmd
    · rw [hf] at hf2
      cases Option.some.inj hf2
      rw [hd] at hd2
      exact Bool.noConfusion hd2
  · intro t hf hd
    rcases markDone_eq l tid now with ⟨hf2, hmd⟩ | ⟨t2, hf2, hd2, hmd⟩ | ⟨t2, hf2, hd2, hmd⟩
    · rw [hf] at hf2; exact Option.noConfusion hf2
    · rw [hf] at hf2
      cases Option.some.inj hf2
      rw [hd] at hd2
      exact Bool.noConfusion hd2
    · rw [hf] at hf2
      cases Option.some.inj hf2
      exact ⟨_, hmd, rfl, rfl, rfl, rfl, rfl, rfl⟩

/-- Witness for C4: marking an already-done task in a concrete list
returns `None` and leaves the list unchanged. -/
theorem c4_witness :
    markDone ⟨[⟨1, "x", true, none, 7, none⟩], 2⟩ 1 100 =
      (none, ⟨[⟨1, "x", true, none, 7, none⟩], 2⟩) :=
  (c4_mark_done_spec ⟨[⟨1, "x", true, none, 7, none⟩], 2⟩ 1 100).2.1
    ⟨1, "x", true, none, 7, none⟩ rfl rfl

/-! ## Claim C8 -/

/-- Claim C8: ids are never reused — `add_task` assigns `next_id` and
increments it, `delete_task` neither renumbers surviving ids (the
surviving tasks are a sublist of the originals, untouched) nor decrements
`next_id`; and the concrete scenario: three adds get ids 1, 2, 3,
deleting id 2 and adding again assigns id 4. -/
theorem c8_ids_never_reused :
    (∀ l title due t l', addTask l title due = .ok (t, l') →
      t.id = l.next_id ∧ l'.next_id = l.next_id + 1 ∧
        l'.tasks = l.tasks ++ [t]) ∧
    (∀ l tid, (deleteTask l tid).2.next_id = l.next_id ∧
      List.Sublist (deleteTask l tid).2.tasks l.tasks) ∧
    (addTask ⟨[], 1⟩ "a" none =
        .ok (⟨1, "a", false, none, 0, none⟩,
          ⟨[⟨1, "a", false, none, 0, none⟩], 2⟩) ∧
      addTask ⟨[⟨1, "a", false, none, 0, none⟩], 2⟩ "b" none =
        .ok (⟨2, "b", false, none, 0, none⟩,
          ⟨[⟨1, "a", false, none, 0, none⟩, ⟨2, "b", false, none, 0, none⟩], 3⟩) ∧
      addTask ⟨[⟨1, "a", false, none, 0, none⟩, ⟨2, "b", false, none, 0, none⟩], 3⟩
          "c" none =
        .ok (⟨3, "c", false, none, 0, none⟩,
          ⟨[⟨1, "a", false, none, 0, none⟩, ⟨2, "b", false, none, 0, none⟩,
            ⟨3, "c", false, none, 0, none⟩], 4⟩) ∧
      deleteTask ⟨[⟨1, "a", false, none, 0, none⟩, ⟨2, "b", false, none, 0, none⟩,
          ⟨3, "c", false, none, 0, none⟩], 4⟩ 2 =
        (some ⟨2, "b", false, none, 0, none⟩,
          ⟨[⟨1, "a", false, none, 0, none⟩, ⟨3, "c", false, none, 0, none⟩], 4⟩) ∧
      addTask ⟨[⟨1, "a", false, none, 0, none⟩, ⟨3, "c", false, none, 0, none⟩], 4⟩
          "d" none =
        .ok (⟨4, "d", false, none, 0, none⟩,
          ⟨[⟨1, "a", false, none, 0, none⟩, ⟨3, "c", false, none, 0, none⟩,
            ⟨4, "d", false, none, 0, none⟩], 5⟩)) := by
  refine ⟨?_, ?_, ?_⟩
  · intro l title due t l' h
    unfold addTask at h
    cases hinit : pyTaskInit (.vint l.next_id) (.vstr title) false due with
    | error e => rw [hinit] at h; exact absurd h (by simp)
    | ok t0 =>
      simp only [hinit] at h
      obtain ⟨n, s, hI, _, hs, _, ht0⟩ := pyTaskInit_ok_shape hinit
      have hn : n = l.next_id :=
        (Option.some.inj (by simpa [pyIntLike] using hI)).symm
      have hpair := Except.ok.inj h
      injection hpair with ht hl
      rw [← ht, ← hl, ht0, hn]
      exact ⟨rfl, rfl, rfl⟩
  · intro l tid
    unfold deleteTask
    cases hf : findTask l tid with
    | none => exact ⟨rfl, List.Sublist.refl _⟩
    | some t => exact ⟨rfl, eraseFirstById_sublist tid l.tasks⟩
  · exact ⟨by decide, by decide, by decide, by decide, by decide⟩

/-- Witness for C8: the add clause of the theorem applied to a concrete
singleton list. -/
theorem c8_witness :
    (⟨5, "x", false, none, 0, none⟩ : Task).id = (⟨[], 5⟩ : TodoList).next_id ∧
      (⟨[⟨5, "x", false, none, 0, none⟩], 6⟩ : TodoList).next_id =
        (⟨[], 5⟩ : TodoList).next_id + 1 ∧
      (⟨[⟨5, "x", false, none, 0, none⟩], 6⟩ : TodoList).tasks =
        (⟨[], 5⟩ : TodoList).tasks ++ [⟨5, "x", false, none, 0, none⟩] :=
  c8_ids_never_reused.1 ⟨[], 5⟩ "x" none ⟨5, "x", false, none, 0, none⟩
    ⟨[⟨5, "x", false, none, 0, none⟩], 6⟩ (by decide)

/-! ## Claim C1 -/

/-- Counterexample to claim C1: `get_upcoming_tasks` does not sort by
ascending due date.  With `now = 2024-01-01 12:00` and two incomplete
tasks due 2024-01-03 and 2024-01-02 (both inside the 3-day window) in
that insertion order, the result keeps insertion order — the later due
date first — so it is not ascending. -/
theorem c1_upcoming_not_sorted :
    getUpcomingTasks
        ⟨[⟨1, "a", false, some ⟨2024, 1, 3, 10, 0, 0, 0⟩, 0, none⟩,
          ⟨2, "b", false, some ⟨2024, 1, 2, 10, 0, 0, 0⟩, 0, none⟩], 3⟩
        ⟨2024, 1, 1, 12, 0, 0, 0⟩ 3 =
      [⟨1, "a", false, some ⟨2024, 1, 3, 10, 0, 0, 0⟩, 0, none⟩,
        ⟨2, "b", false, some ⟨2024, 1, 2, 10, 0, 0, 0⟩, 0, none⟩] ∧
    dueAscending
      (getUpcomingTasks
        ⟨[⟨1, "a", false, some ⟨2024, 1, 3, 10, 0, 0, 0⟩, 0, none⟩,
          ⟨2, "b", false, some ⟨2024, 1, 2, 10, 0, 0, 0⟩, 0, none⟩], 3⟩
        ⟨2024, 1, 1, 12, 0, 0, 0⟩ 3) = false := by
  exact ⟨by decide, by decide⟩

/-- Claim C1 (amended): `get_upcoming_tasks(days)` returns the empty list
whenever `days <= 0`, and otherwise exactly the tasks with
`done == false` and a due date in `[now, now + timedelta(days=days)]` —
kept in their original insertion order (a sublist of the task list), not
sorted by due date. -/
theorem c1_upcoming_filter (l : TodoList) (now : PyDateTime) (days : Int) :
    (days ≤ 0 → getUpcomingTasks l now days = []) ∧
    List.Sublist (getUpcomingTasks l now days) l.tasks ∧
    (∀ t, t ∈ getUpcomingTasks l now days ↔
      0 < days ∧ t ∈ l.tasks ∧ t.done = false ∧
        ∃ d, t.due_date = some d ∧ dtLe now d = true ∧
          dtLe d (addDaysNat now days.toNat) = true) := by
  by_cases hd : days ≤ 0
  · refine ⟨fun _ => ?_, ?_, fun t => ?_⟩
    · unfold getUpcomingTasks; rw [if_pos hd]
    · unfold getUpcomingTasks; rw [if_pos hd]; exact List.nil_sublist _
    · unfold getUpcomingTasks; rw [if_pos hd]
      simp only [List.not_mem_nil, false_iff]
      intro hc
      omega
  · refine ⟨fun h => absurd h hd, ?_, fun t => ?_⟩
    · unfold getUpcomingTasks; rw [if_neg hd]
      exact List.filter_sublist _
    · unfold getUpcomingTasks; rw [if_neg hd]
      rw [List.mem_filter]
      constructor
      · rintro ⟨hmem, hp⟩
        refine ⟨by omega, hmem, ?_⟩
        cases hdd : t.due_date with
        | none => rw [hdd] at hp; simp at hp
        | some d =>
          rw [hdd] at hp
          simp only [Bool.and_eq_true, Bool.not_eq_true'] at hp
          exact ⟨hp.1, d, rfl, hp.2.1, hp.2.2⟩
      · rintro ⟨-, hmem, hdone, d, hdd, h1, h2⟩
        refine ⟨hmem, ?_⟩
        rw [hdd]
        simp only [Bool.and_eq_true, Bool.not_eq_true']
        exact ⟨hdone, h1, h2⟩

/-- Witness for C1 (amended): the `days ≤ 0` clause applied at a concrete
list with a task present. -/
theorem c1_witness :
    getUpcomingTasks
        ⟨[⟨1, "a", false, some ⟨2024, 1, 2, 10, 0, 0, 0⟩, 0, none⟩], 2⟩
        ⟨2024, 1, 1, 12, 0, 0, 0⟩ 0 = [] :=
  (c1_upcoming_filter
      ⟨[⟨1, "a", false, some ⟨2024, 1, 2, 10, 0, 0, 0⟩, 0, none⟩], 2⟩
      ⟨2024, 1, 1, 12, 0, 0, 0⟩ 0).1 (by decide)

/-! ## Claim C7 -/

/-- Claim C7: a record that decodes successfully with `time_spent := 0`
also decodes successfully when it carries a negative `time_spent`, and
the resulting task has `time_spent == 0` (silent clamping); moreover
every successfully deserialized task satisfies `time_spent ≥ 0`. -/
theorem c7_negative_time_spent_clamped :
    (∀ r t0, fromDict { r with time_spent := some (.vfloat 0) } = .ok t0 →
      ∀ q : ℚ, q < 0 → r.time_spent = some (.vfloat q) →
        fromDict r = .ok { t0 with time_spent := 0 }) ∧
    (∀ r t, fromDict r = .ok t → 0 ≤ t.time_spent) := by
  constructor
  · intro r t0 h q hq hts
    have hcore : fromDictCore { r with time_spent := some (.vfloat 0) } =
        fromDictCore r := rfl
    unfold fromDict at h ⊢
    rw [hcore] at h
    cases hc : fromDictCore r with
    | error e => rw [hc] at h; exact Except.noConfusion h
    | ok t1 =>
      simp only [hc] at h ⊢
      have h0 : ({ r with time_spent := some (.vfloat 0) } :
          RawRecord).time_spent.getD (.vfloat 0) = .vfloat 0 := rfl
      rw [h0] at h
      simp only [decodeTimeSpent] at h
      have ht0 : t0 = { t1 with time_spent := max 0 0 } :=
        (Except.ok.inj h).symm
      rw [hts]
      simp only [Option.getD_some, decodeTimeSpent]
      rw [ht0]
      have : max (0 : ℚ) q = 0 := max_eq_left (le_of_lt hq)
      rw [this]
  · intro r t h
    unfold fromDict at h
    cases hc : fromDictCore r with
    | error e => rw [hc] at h; exact Except.noConfusion h
    | ok t1 =>
      simp only [hc] at h
      cases hq : decodeTimeSpent (r.time_spent.getD (.vfloat 0)) with
      | error e => rw [hq] at h; exact Except.noConfusion h
      | ok q =>
        simp only [hq] at h
        cases Except.ok.inj h
        exact decodeTimeSpent_nonneg hq

/-- Witness for C7: the concrete record of the spec scenario with
`time_spent = -100` decodes to a task with `time_spent = 0`. -/
theorem c7_witness :
    fromDict ⟨some (.vint 1), some (.vstr "Test"), some (.vbool false), none,
        some (.vfloat (-100))⟩ =
      .ok ⟨1, "Test", false, none, 0, none⟩ :=
  c7_negative_time_spent_clamped.1
    ⟨some (.vint 1), some (.vstr "Test"), some (.vbool false), none,
      some (.vfloat (-100))⟩
    ⟨1, "Test", false, none, 0, none⟩ (by decide) (-100) (by norm_num) rfl

/-! ## Claim C6 -/

/-- The record's `id` key is missing or malformed: absent, not an int
(bools count as ints in Python), or non-positive. -/
def idMalformed (r : RawRecord) : Prop :=
  match r.id with
  | none => True
  | some v =>
    match pyIntLike v with
    | none => True
    | some n => n ≤ 0

/-- The record's `title` key is missing, falsy, or a string that strips
to empty. -/
def titleMissingOrBlank (r : RawRecord) : Prop :=
  match r.title with
  | none => True
  | some v => pyTruthy v = false ∨ ∃ s, v = .vstr s ∧ pyStrip s = ""

/-- The record's `title` key holds a truthy non-string value (the inputs
on which `title.strip()` raises `AttributeError`). -/
def titleTruthyNonString (r : RawRecord) : Prop :=
  ∃ v, r.title = some v ∧ pyTruthy v = true ∧ ∀ s, v ≠ .vstr s

theorem decodeDue_error {v : Option PyVal} {e : FromDictErr}
    (h : decodeDue v = .error e) : e = .invalidData := by
  cases v with
  | none => exact Except.noConfusion h
  | some pv =>
    simp only [decodeDue] at h
    by_cases ht : pyTruthy pv
    · rw [if_pos ht] at h
      cases pv with
      | vstr s =>
        cases hf : fromisoformat s with
        | some d => simp only [hf] at h; exact Except.noConfusion h
        | none => simp only [hf] at h; exact (Except.error.inj h).symm
      | vint n => exact (Except.error.inj h).symm
      | vbool b => exact (Except.error.inj h).symm
      | vfloat q => exact (Except.error.inj h).symm
      | vnone => exact (Except.error.inj h).symm
    · rw [if_neg ht] at h; exact Except.noConfusion h

theorem fromDict_error_of_core {r : RawRecord} {e : FromDictErr}
    (h : fromDictCore r = .error e) : fromDict r = .error e := by
  unfold fromDict
  simp only [h]

theorem pyTaskInit_err_of_bad {idv titlev : PyVal} {done : Bool}
    {due : Option PyDateTime}
    (h : (match pyIntLike idv with | none => True | some n => n ≤ 0) ∨
      pyTruthy titlev = false ∨ ∃ s, titlev = .vstr s ∧ pyStrip s = "") :
    pyTaskInit idv titlev done due = .error .valueError := by
  unfold pyTaskInit
  cases hI : pyIntLike idv with
  | none => rfl
  | some n =>
    simp only [hI] at h
    by_cases hn : n ≤ 0
    · simp only [if_pos hn]
    · simp only [if_neg hn]
      rcases h with hn2 | htr | ⟨s, hs, hps⟩
      · exact absurd hn2 hn
      · simp only [if_pos htr]
      · subst hs
        by_cases htr : pyTruthy (.vstr s) = false
        · simp only [if_pos htr]
        · simp only [if_neg htr, if_pos hps]

theorem pyTaskInit_err_of_nonstr (idv titlev : PyVal) (done : Bool)
    (due : Option PyDateTime)
    (htr : pyTruthy titlev = true) (hns : ∀ s, titlev ≠ .vstr s) :
    ∃ e, pyTaskInit idv titlev done due = .error e := by
  unfold pyTaskInit
  cases hI : pyIntLike idv with
  | none => exact ⟨.valueError, rfl⟩
  | some n =>
    by_cases hn : n ≤ 0
    · exact ⟨.valueError, by simp only [if_pos hn]⟩
    · refine ⟨.attributeError, ?_⟩
      have hfalse : ¬ pyTruthy titlev = false := by
        rw [htr]; exact fun hc => Bool.noConfusion hc
      simp only [if_neg hn, if_neg hfalse]

/-- Counterexample to claim C6: the record `{id: 1, title: 5}` has a
malformed (non-string) title, yet `from_dict` does not fail with
`InvalidData` — evaluating `title.strip()` on the int raises an uncaught
`AttributeError` instead. -/
theorem c6_nonstring_title_attribute_error :
    fromDict ⟨some (.vint 1), some (.vint 5), none, none, none⟩ =
        .error .attributeError ∧
      (Except.error FromDictErr.attributeError :
          Except FromDictErr Task) ≠ .error .invalidData := by
  exact ⟨by decide, by decide⟩

/-- Claim C6 (amended): a record whose `id` key is missing or malformed,
or whose `title` key is missing, falsy or blank, makes `from_record` fail
with `InvalidData`; a record whose `title` is a truthy non-string value
still fails (never silently defaults), but with an uncaught
`AttributeError` rather than `InvalidData`. -/
theorem c6_bad_id_title_rejected (r : RawRecord) :
    ((idMalformed r ∨ titleMissingOrBlank r) →
      fromDict r = .error .invalidData) ∧
    (titleTruthyNonString r → ∃ e, fromDict r = .error e) := by
  constructor
  · intro hbad
    apply fromDict_error_of_core
    unfold fromDictCore
    cases hd : decodeDue r.due_date with
    | error e => simp only [hd]; rw [decodeDue_error hd]
    | ok due =>
      simp only [hd]
      cases hid : r.id with
      | none => simp only [hid]
      | some idv =>
        simp only [hid]
        cases hti : r.title with
        | none => simp only [hti]
        | some titlev =>
          simp only [hti]
          have hinit : pyTaskInit idv titlev
              (pyTruthy (r.done.getD (.vbool false))) due = .error .valueError := by
            apply pyTaskInit_err_of_bad
            rcases hbad with hbad | hbad
            · unfold idMalformed at hbad
              simp only [hid] at hbad
              exact Or.inl hbad
            · unfold titleMissingOrBlank at hbad
              simp only [hti] at hbad
              exact Or.inr hbad
          simp only [hinit]
  · rintro ⟨v, hv, htr, hns⟩
    cases hd : decodeDue r.due_date with
    | error e => exact ⟨e, fromDict_error_of_core (by unfold fromDictCore; simp only [hd])⟩
    | ok due =>
      cases hid : r.id with
      | none =>
        refine ⟨.invalidData, fromDict_error_of_core ?_⟩
        unfold fromDictCore
        simp only [hd, hid]
      | some idv =>
        obtain ⟨e, he⟩ := pyTaskInit_err_of_nonstr idv v
          (pyTruthy (r.done.getD (.vbool false))) due htr hns
        refine ⟨match e with
          | .valueError => .invalidData
          | .attributeError => .attributeError, fromDict_error_of_core ?_⟩
        unfold fromDictCore
        simp only [hd, hid, hv, he]
        cases e <;> rfl

/-- Witness for C6 (amended): a record with a missing `id` key is
rejected with `InvalidData`, via the theorem. -/
theorem c6_witness :
    fromDict ⟨none, some (.vstr "x"), none, none, none⟩ =
      .error .invalidData :=
  (c6_bad_id_title_rejected ⟨none, some (.vstr "x"), none, none, none⟩).1
    (Or.inl trivial)

/-! ## Claim C3 -/

/-- A datetime all of whose fields are in the ranges `datetime` enforces
(every value `datetime.now()`, `parse_due_date` or deserialization can
produce). -/
def ValidDT (d : PyDateTime) : Prop :=
  1 ≤ d.year ∧ d.year ≤ 9999 ∧ 1 ≤ d.month ∧ d.month ≤ 12 ∧ 1 ≤ d.day ∧
    d.day ≤ daysInMonth d.year d.month ∧ d.hour ≤ 23 ∧ d.minute ≤ 59 ∧
    d.second ≤ 59 ∧ d.microsecond ≤ 999999

/-- A task state reachable through the public operations: positive id,
non-empty already-stripped title, non-negative accumulated time, and a
calendar-valid due date when present. -/
def GoodTask (t : Task) : Prop :=
  0 < t.id ∧ t.title ≠ "" ∧ pyStrip t.title = t.title ∧ 0 ≤ t.time_spent ∧
    ∀ d ∈ t.due_date, ValidDT d

instance decValidDT (d : PyDateTime) : Decidable (ValidDT d) := by
  unfold ValidDT
  exact inferInstance

theorem daysInMonth_le (y m : Nat) : daysInMonth y m ≤ 31 := by
  unfold daysInMonth
  split_ifs <;> omega

theorem parseDigit_digitOf (k : Nat) (hk : k ≤ 9) :
    parseDigit (digitOf k) = some k := by
  interval_cases k <;> rfl

theorem parseD2_pad {n : Nat} (h : n ≤ 99) :
    parseD2 (digitOf (n / 10)) (digitOf (n % 10)) = some n := by
  have h1 := parseDigit_digitOf (n / 10) (by omega)
  have h2 := parseDigit_digitOf (n % 10) (by omega)
  unfold parseD2
  simp only [h1, h2]
  congr 1
  omega

theorem parseD4_pad {n : Nat} (h : n ≤ 9999) :
    parseD4 (digitOf (n / 1000)) (digitOf (n / 100 % 10))
      (digitOf (n / 10 % 10)) (digitOf (n % 10)) = some n := by
  have h1 := parseDigit_digitOf (n / 1000) (by omega)
  have h2 := parseDigit_digitOf (n / 100 % 10) (by omega)
  have h3 := parseDigit_digitOf (n / 10 % 10) (by omega)
  have h4 := parseDigit_digitOf (n % 10) (by omega)
  unfold parseD4
  simp only [h1, h2, h3, h4]
  congr 1
  omega

theorem parseD6_pad {n : Nat} (h : n ≤ 999999) :
    parseD6 (digitOf (n / 100000)) (digitOf (n / 10000 % 10))
      (digitOf (n / 1000 % 10)) (digitOf (n / 100 % 10))
      (digitOf (n / 10 % 10)) (digitOf (n % 10)) = some n := by
  have h1 := parseDigit_digitOf (n / 100000) (by omega)
  have h2 := parseDigit_digitOf (n / 10000 % 10) (by omega)
  have h3 := parseDigit_digitOf (n / 1000 % 10) (by omega)
  have h4 := parseDigit_digitOf (n / 100 % 10) (by omega)
  have h5 := parseDigit_digitOf (n / 10 % 10) (by omega)
  have h6 := parseDigit_digitOf (n % 10) (by omega)
  unfold parseD6
  simp only [h1, h2, h3, h4, h5, h6]
  congr 1
  omega

/-- The serialisation round trip of the standard library pair:
`fromisoformat (isoformat d) = d` for calendar-valid datetimes. -/
theorem parseIso_roundtrip {d : PyDateTime} (h : ValidDT d) :
    parseIsoL (isoformatL d) = some d := by
  obtain ⟨y, mo, da, hh, mi, ss, mic⟩ := d
  unfold ValidDT at h
  dsimp only at h
  obtain ⟨h1, h2, h3, h4, h5, h6, h7, h8, h9, h10⟩ := h
  have e4 : parseD4 (digitOf (y / 1000)) (digitOf (y / 100 % 10))
      (digitOf (y / 10 % 10)) (digitOf (y % 10)) = some y := parseD4_pad h2
  have emo : parseD2 (digitOf (mo / 10)) (digitOf (mo % 10)) = some mo :=
    parseD2_pad (by omega)
  have eda : parseD2 (digitOf (da / 10)) (digitOf (da % 10)) = some da :=
    parseD2_pad (by have := daysInMonth_le y mo; omega)
  have ehh : parseD2 (digitOf (hh / 10)) (digitOf (hh % 10)) = some hh :=
    parseD2_pad (by omega)
  have emi : parseD2 (digitOf (mi / 10)) (digitOf (mi % 10)) = some mi :=
    parseD2_pad (by omega)
  have ess : parseD2 (digitOf (ss / 10)) (digitOf (ss % 10)) = some ss :=
    parseD2_pad (by omega)
  by_cases hm : mic = 0
  · subst hm
    unfold isoformatL
    simp only [pad4, pad2]
    simp only [List.cons_append, List.nil_append, List.append_nil, if_pos rfl]
    simp [parseIsoL, e4, emo, eda, ehh, emi, ess, mkDT, h1, h2, h3, h4, h5, h6,
      h7, h8, h9]
  · have e6 : parseD6 (digitOf (mic / 100000)) (digitOf (mic / 10000 % 10))
        (digitOf (mic / 1000 % 10)) (digitOf (mic / 100 % 10))
        (digitOf (mic / 10 % 10)) (digitOf (mic % 10)) = some mic :=
      parseD6_pad h10
    unfold isoformatL
    simp only [pad4, pad2, pad6, if_neg hm]
    simp only [List.cons_append, List.nil_append, List.append_nil]
    simp [parseIsoL, e4, emo, eda, ehh, emi, ess, e6, mkDT, h1, h2, h3, h4, h5,
      h6, h7, h8, h9, h10]

theorem isoformat_ne_empty (d : PyDateTime) : isoformat d ≠ "" := by
  intro hc
  have hdata : isoformatL d = [] := congrArg String.data hc
  unfold isoformatL pad4 at hdata
  simp only [List.cons_append] at hdata
  exact List.noConfusion hdata

theorem pyTaskInit_good (i : Int) (s : String) (b : Bool)
    (due : Option PyDateTime) (hi : 0 < i) (hs : s ≠ "")
    (hstr : pyStrip s = s) :
    pyTaskInit (.vint i) (.vstr s) b due = .ok ⟨i, s, b, due, 0, none⟩ := by
  have hile : ¬ i ≤ 0 := by omega
  simp [pyTaskInit, pyIntLike, pyTruthy, hile, hs, hstr]

theorem decodeDue_toDict (t : Task) (hdue : ∀ d ∈ t.due_date, ValidDT d) :
    decodeDue (toDict t).due_date = .ok t.due_date := by
  cases hd : t.due_date with
  | none => simp [toDict, hd, decodeDue, pyTruthy]
  | some d =>
    have hv : ValidDT d := hdue d (by simp [hd])
    have hne : ({ data := isoformatL d } : String) ≠ "" := isoformat_ne_empty d
    simp [toDict, hd, decodeDue, pyTruthy, hne, fromisoformat,
      isoformat, parseIso_roundtrip hv]

/-- Claim C3: for every task reachable through the public operations,
`from_record(t.to_record())` succeeds and reproduces `id`, `title`,
`done`, `due_date` and `time_spent` exactly; `timer_start` is excluded
(the round trip always restores it to `None`). -/
theorem c3_record_round_trip (t : Task) (h : GoodTask t) :
    fromDict (toDict t) = .ok { t with timer_start := none } := by
  obtain ⟨hid, hne, hstrip, hts, hdue⟩ := h
  have hcore : fromDictCore (toDict t) =
      .ok ⟨t.id, t.title, t.done, t.due_date, 0, none⟩ := by
    unfold fromDictCore
    rw [decodeDue_toDict t hdue]
    have hinit : pyTaskInit (.vint t.id) (.vstr t.title)
        (pyTruthy ((toDict t).done.getD (.vbool false))) t.due_date =
        .ok ⟨t.id, t.title, pyTruthy ((toDict t).done.getD (.vbool false)),
          t.due_date, 0, none⟩ :=
      pyTaskInit_good t.id t.title _ t.due_date hid hne hstrip
    simp only [toDict] at hinit ⊢
    simp only [hinit]
    rfl
  unfold fromDict
  simp only [hcore]
  have htsv : decodeTimeSpent ((toDict t).time_spent.getD (.vfloat 0)) =
      .ok t.time_spent := by
    simp only [toDict, Option.getD_some, decodeTimeSpent]
    rw [max_eq_right hts]
  simp only [htsv]

/-- Witness for C3: a concrete completed task with a due date and
accumulated time survives the round trip. -/
theorem c3_witness :
    fromDict (toDict ⟨1, "Serialization test", true,
        some ⟨2024, 12, 31, 23, 59, 0, 0⟩, 3600, none⟩) =
      .ok ⟨1, "Serialization test", true,
        some ⟨2024, 12, 31, 23, 59, 0, 0⟩, 3600, none⟩ :=
  c3_record_round_trip
    ⟨1, "Serialization test", true, some ⟨2024, 12, 31, 23, 59, 0, 0⟩, 3600, none⟩
    (by refine ⟨by decide, by decide, by decide, by norm_num, ?_⟩
        intro d hd
        cases hd
        decide)

/-! ## Claim C2 -/

/-- The duration formatter as claim C2 words it: decompose, emit the
non-zero day/hour/minute components largest-to-smallest (minutes
suppressed when a day component is present), and fall back to showing
seconds only when no components remain after suppression. -/
def formatDurationClaim (seconds : ℚ) : String :=
  if seconds < 60 then toString (pyIntQ seconds) ++ "s"
  else
    let n : Nat := (pyIntQ seconds).toNat
    let days := n / 86400
    let rem1 := n % 86400
    let hours := rem1 / 3600
    let rem2 := rem1 % 3600
    let minutes := rem2 / 60
    let secs := rem2 % 60
    let parts : List String :=
      (if 0 < days then [toString days ++ "d"] else []) ++
      (if 0 < hours then [toString hours ++ "h"] else []) ++
      (if 0 < minutes ∧ days = 0 then [toString minutes ++ "m"] else [])
    if parts = [] then toString secs ++ "s" else String.intercalate " " parts

/-- The duration formatter as the source actually behaves (the amended
claim): the seconds value is appended — even when zero — exactly when the
emitted components consist solely of the minutes component, i.e. when the
day and hour components are both zero (for durations ≥ 60s the component
list is never empty). -/
def formatDurationAmended (seconds : ℚ) : String :=
  if seconds < 60 then toString (pyIntQ seconds) ++ "s"
  else
    let n : Nat := (pyIntQ seconds).toNat
    let days := n / 86400
    let rem1 := n % 86400
    let hours := rem1 / 3600
    let rem2 := rem1 % 3600
    let minutes := rem2 / 60
    let secs := rem2 % 60
    if days = 0 ∧ hours = 0 then
      String.intercalate " " [toString minutes ++ "m", toString secs ++ "s"]
    else
      String.intercalate " "
        ((if 0 < days then [toString days ++ "d"] else []) ++
          (if 0 < hours then [toString hours ++ "h"] else []) ++
          (if 0 < minutes ∧ days = 0 then [toString minutes ++ "m"] else []))

theorem pyEndsWith_append_d (x : String) : pyEndsWith (x ++ "d") "m" = false := by
  unfold pyEndsWith
  rw [String.data_append]
  show List.isSuffixOf ['m'] (x.data ++ ['d']) = false
  simp [List.isSuffixOf, List.reverse_append, List.isPrefixOf]

theorem pyEndsWith_append_h (x : String) : pyEndsWith (x ++ "h") "m" = false := by
  unfold pyEndsWith
  rw [String.data_append]
  show List.isSuffixOf ['m'] (x.data ++ ['h']) = false
  simp [List.isSuffixOf, List.reverse_append, List.isPrefixOf]

theorem pyEndsWith_append_m (x : String) : pyEndsWith (x ++ "m") "m" = true := by
  unfold pyEndsWith
  rw [String.data_append]
  show List.isSuffixOf ['m'] (x.data ++ ['m']) = true
  simp [List.isSuffixOf, List.reverse_append, List.isPrefixOf]

/-- Counterexample to claim C2: at 60 seconds the code yields `"1m 0s"`
— the zero seconds component is appended although the minutes component
remains after suppression — while the claim's formatting rule yields
`"1m"`. -/
theorem c2_minutes_only_gets_seconds :
    formatDuration 60 = "1m 0s" ∧ formatDurationClaim 60 = "1m" ∧
      formatDuration 60 ≠ formatDurationClaim 60 := by
  exact ⟨by decide, by decide, by decide⟩

/-- Claim C2 (amended): for durations of at least 60 seconds the code
decomposes into days/hours/minutes/seconds by integer division and emits
the non-zero day/hour/minute components largest-to-smallest
space-separated (minutes suppressed whenever days are present), except
that when the day and hour components are both zero it emits the minutes
component followed by the seconds value even when a component remains
(and even when the seconds are zero); in particular
`format_duration(90000) = "1d 1h"`. -/
theorem c2_duration_format :
    (∀ s : ℚ, 60 ≤ s → formatDuration s = formatDurationAmended s) ∧
      formatDuration 90000 = "1d 1h" := by
  constructor
  · intro s hs
    have hlt : ¬ s < 60 := not_lt.mpr hs
    have hs0 : (0 : ℚ) ≤ s := le_trans (by norm_num) hs
    have hfloor : (60 : Int) ≤ pyIntQ s := by
      unfold pyIntQ
      rw [if_pos hs0, ← Rat.floor_def]
      exact Int.le_floor.mpr (by exact_mod_cast hs)
    have h60 : 60 ≤ (pyIntQ s).toNat := by omega
    unfold formatDuration formatDurationAmended
    rw [if_neg hlt]
    generalize hgen : (pyIntQ s).toNat = n at h60
    by_cases hd : 0 < n / 86400
    · have hdh0 : ¬ (n / 86400 = 0 ∧ n % 86400 / 3600 = 0) := by omega
      have hmcond : ¬ (0 < n % 86400 % 3600 / 60 ∧ n / 86400 = 0) := by omega
      by_cases hh : 0 < n % 86400 / 3600
      · simp [if_pos hd, if_pos hh, if_neg hmcond, if_neg hdh0, if_neg hlt]
      · simp [if_pos hd, if_neg hh, if_neg hmcond, if_neg hdh0, if_neg hlt,
          pyEndsWith_append_d]
    · have hd0 : n / 86400 = 0 := by omega
      by_cases hh : 0 < n % 86400 / 3600
      · have hdh0 : ¬ (n / 86400 = 0 ∧ n % 86400 / 3600 = 0) := by omega
        by_cases hm : 0 < n % 86400 % 3600 / 60
        · simp [if_neg hd, if_pos hh, if_pos (And.intro hm hd0), if_neg hdh0,
            if_neg hlt]
        · have hmcond : ¬ (0 < n % 86400 % 3600 / 60 ∧ n / 86400 = 0) := by omega
          simp [if_neg hd, if_pos hh, if_neg hmcond, if_neg hdh0, if_neg hlt,
            pyEndsWith_append_h]
      · have hm : 0 < n % 86400 % 3600 / 60 := by omega
        simp [if_neg hd, if_neg hh, if_pos (And.intro hm hd0), if_neg hlt,
          if_pos (And.intro hd0 (by omega : n % 86400 / 3600 = 0)),
          pyEndsWith_append_m]
  · decide

/-- Witness for C2 (amended): the theorem applied at the spec's own
scenario input 90000. -/
theorem c2_witness :
    formatDuration 90000 = formatDurationAmended 90000 :=
  c2_duration_format.1 90000 (by norm_num)

/-! ## Claim C9 -/

/-- `s` is `target` up to casing and surrounding whitespace: its
characters split into leading whitespace, a middle part whose
lowercasing is `target`, and trailing whitespace. -/
def WsCasingOf (s target : String) : Prop :=
  ∃ w1 mid w2, s.data = w1 ++ mid ++ w2 ∧ (∀ c ∈ w1, isPySpace c = true) ∧
    (∀ c ∈ w2, isPySpace c = true) ∧ mid.map pyCharLower = target.data

theorem pyCharLower_space {c : Char} (h : isPySpace c = true) :
    pyCharLower c = c := by
  unfold isPySpace at h
  simp only [Bool.or_eq_true, decide_eq_true_eq] at h
  rcases h with ((((h | h) | h) | h) | h) | h <;> subst h <;> decide

theorem map_pyCharLower_spaces {w : List Char}
    (h : ∀ c ∈ w, isPySpace c = true) : w.map pyCharLower = w := by
  induction w with
  | nil => rfl
  | cons a as ih =>
    rw [List.map_cons, pyCharLower_space (h a (List.mem_cons_self a as)),
      ih (fun c hc => h c (List.mem_cons_of_mem a hc))]

theorem dropWhile_append_spaces {p : Char → Bool} {w r : List Char}
    (h : ∀ c ∈ w, p c = true) : (w ++ r).dropWhile p = r.dropWhile p := by
  induction w with
  | nil => rfl
  | cons a as ih =>
    rw [List.cons_append]
    simp only [List.dropWhile, h a (List.mem_cons_self a as)]
    exact ih (fun c hc => h c (List.mem_cons_of_mem a hc))

theorem dropWhile_cons_false {p : Char → Bool} {a : Char} {l : List Char}
    (h : p a = false) : (a :: l).dropWhile p = a :: l := by
  simp only [List.dropWhile, h]

theorem pyStripL_sandwich {w1 w2 core : List Char}
    (h1 : ∀ c ∈ w1, isPySpace c = true) (h2 : ∀ c ∈ w2, isPySpace c = true)
    (hc1 : ∃ c cs, core = c :: cs ∧ isPySpace c = false)
    (hc2 : ∃ c cs, core.reverse = c :: cs ∧ isPySpace c = false) :
    pyStripL (w1 ++ core ++ w2) = core := by
  obtain ⟨c, cs, hcore, hcfalse⟩ := hc1
  obtain ⟨e, es, hrev, hefalse⟩ := hc2
  unfold pyStripL
  rw [List.append_assoc, dropWhile_append_spaces h1]
  rw [hcore, List.cons_append, dropWhile_cons_false hcfalse, ← List.cons_append,
    ← hcore]
  rw [List.reverse_append, dropWhile_append_spaces
    (fun x hx => h2 x (List.mem_reverse.mp hx))]
  rw [hrev, dropWhile_cons_false hefalse, ← hrev, List.reverse_reverse]

theorem pyStrip_pyLower_of_wsCasing {s t : String} (h : WsCasingOf s t)
    (hc1 : ∃ c cs, t.data = c :: cs ∧ isPySpace c = false)
    (hc2 : ∃ c cs, t.data.reverse = c :: cs ∧ isPySpace c = false) :
    pyStrip (pyLower s) = t := by
  obtain ⟨w1, mid, w2, hs, h1, h2, hmid⟩ := h
  show String.mk (pyStripL (s.data.map pyCharLower)) = t
  rw [hs, List.map_append, List.map_append, map_pyCharLower_spaces h1,
    map_pyCharLower_spaces h2, hmid]
  rw [pyStripL_sandwich h1 h2 hc1 hc2]

theorem nextDay_time_fields (d : PyDateTime) :
    (nextDay d).hour = d.hour ∧ (nextDay d).minute = d.minute ∧
      (nextDay d).second = d.second ∧ (nextDay d).microsecond = d.microsecond := by
  unfold nextDay
  split_ifs <;> exact ⟨rfl, rfl, rfl, rfl⟩

/-- Claim C9: `parse_due_date` is case-insensitive and ignores
surrounding whitespace: any casing/whitespace variant of `"today"` or
`"now"` yields today's date (the date fields of `now`) at exactly
23:59:59 (microsecond inherited from `now`, as `replace` leaves it), and
any variant of `"tomorrow"` yields the next calendar day's date at
exactly 23:59:59. -/
theorem c9_parse_due_date_relative
    (strptime : String → String → Option PyDateTime) (now : PyDateTime)
    (s : String) :
    ((WsCasingOf s "today" ∨ WsCasingOf s "now") →
      parseDueDate strptime now s =
        .ok ⟨now.year, now.month, now.day, 23, 59, 59, now.microsecond⟩) ∧
    (WsCasingOf s "tomorrow" →
      parseDueDate strptime now s =
        .ok ⟨(nextDay now).year, (nextDay now).month, (nextDay now).day,
          23, 59, 59, now.microsecond⟩) := by
  constructor
  · intro h
    have hd : pyStrip (pyLower s) = "today" ∨ pyStrip (pyLower s) = "now" := by
      rcases h with h | h
      · exact Or.inl (pyStrip_pyLower_of_wsCasing h
          ⟨'t', ['o', 'd', 'a', 'y'], by decide, by decide⟩
          ⟨'y', ['a', 'd', 'o', 't'], by decide, by decide⟩)
      · exact Or.inr (pyStrip_pyLower_of_wsCasing h
          ⟨'n', ['o', 'w'], by decide, by decide⟩
          ⟨'w', ['o', 'n'], by decide, by decide⟩)
    unfold parseDueDate
    rw [if_pos hd]
  · intro h
    have hd : pyStrip (pyLower s) = "tomorrow" :=
      pyStrip_pyLower_of_wsCasing h
        ⟨'t', ['o', 'm', 'o', 'r', 'r', 'o', 'w'], by decide, by decide⟩
        ⟨'w', ['o', 'r', 'r', 'o', 'm', 'o', 't'], by decide, by decide⟩
    unfold parseDueDate
    rw [hd]
    rw [if_neg (by decide), if_pos rfl]
    obtain ⟨hh, hmi, hss, hmic⟩ := nextDay_time_fields now
    rw [show ({ nextDay now with hour := 23, minute := 59, second := 59 } :
        PyDateTime) = ⟨(nextDay now).year, (nextDay now).month,
        (nextDay now).day, 23, 59, 59, now.microsecond⟩ from by rw [← hmic]]

/-- Witness for C9: a concrete mixed-case, whitespace-padded `"ToDaY"`
parsed against a concrete `now`. -/
theorem c9_witness :
    parseDueDate (fun _ _ => none) ⟨2024, 5, 17, 8, 30, 15, 123⟩ "  ToDaY " =
      .ok ⟨2024, 5, 17, 23, 59, 59, 123⟩ :=
  (c9_parse_due_date_relative (fun _ _ => none) ⟨2024, 5, 17, 8, 30, 15, 123⟩
      "  ToDaY ").1
    (Or.inl ⟨[' ', ' '], ['T', 'o', 'D', 'a', 'Y'], [' '], by decide, by decide,
      by decide, by decide⟩)

end TodoCli
